import Mathlib

/-!
Shallow embedding of the generational genetic-algorithm engine in
`simpleGA/genetic_algorithm_base.py` (class `GenAlgSolver`).

Modelling conventions:
* numpy float arrays are modelled as `List ℚ` (exact arithmetic); the Boltzmann
  probability computation, which applies `np.exp`, is modelled over `ℝ` with the
  exponential taken as an explicit function argument.
* population rows (chromosomes) are modelled as `List ℚ` (gene values are opaque
  to the engine; a numeric gene type loses no generality for the engine logic).
* every call to `np.random.*` is modelled by an explicit oracle argument that
  supplies the drawn values; properties proved below hold for every oracle.
* child-class hooks that are not part of the base class
  (`initialize_population`, `create_offspring`, the gene-overwrite part of
  `mutate_population`, `refill_population`) are abstracted as fields of a
  `Child` record; their contracts come from the spec.
-/

namespace SimpleGA

/-- numpy `np.argmin` on a boolean array: the index of the first occurrence of the
minimum value.  If any entry is `false` (the minimum of a boolean array containing
`false`), the result is the index of the first `false`; on an all-`true` array the
minimum is `true` and the result is `0`. -/
def npArgminBool (l : List Bool) : Nat :=
  if l.contains false then l.findIdx (· = false) else 0

/-- numpy `np.argmax` on a rational array: the index of the first occurrence of the
maximum value (`np.argmax` takes the first maximum). -/
def npArgmaxQ (l : List ℚ) : Nat :=
  l.findIdx (· = l.foldr max (l.headD 0))

/-- numpy `np.cumsum` with an explicit running total. -/
def cumsumFrom {α : Type} [Add α] (acc : α) : List α → List α
  | [] => []
  | x :: xs => (acc + x) :: cumsumFrom (acc + x) xs

/-- numpy `np.cumsum`: `npCumsum [a, b, c] = [a, a + b, a + b + c]`. -/
def npCumsum {α : Type} [Add α] [Zero α] (l : List α) : List α :=
  cumsumFrom 0 l

/-- numpy `np.linspace a b n`: `n` evenly spaced points from `a` to `b` inclusive.
(For `n = 1` numpy returns `[a]`; the formula below also gives `a` because
division by zero is `0` in Lean.) -/
def npLinspace (a b : ℚ) (n : Nat) : List ℚ :=
  (List.range n).map (fun i : Nat => a + (b - a) * (i : ℚ) / ((n : ℚ) - 1))

/-- numpy `np.mean` of a rational array. -/
def npMean (l : List ℚ) : ℚ := l.sum / l.length

/-- Python `int(np.ceil q)` on an exact rational, computably: the ceiling as an
integer. -/
def ratCeilZ (q : ℚ) : ℤ := -((-q).floor)

/-- The tie-breaking total order used to model `np.argsort fitness`:
index `i` comes before index `j` when its fitness value is smaller, with ties
broken by index order. -/
def argsortLE (fitness : List ℚ) (i j : Nat) : Prop :=
  fitness.getD i 0 < fitness.getD j 0 ∨ (fitness.getD i 0 = fitness.getD j 0 ∧ i ≤ j)

instance argsortLE.decidable (fitness : List ℚ) : DecidableRel (argsortLE fitness) :=
  fun i j => by unfold argsortLE; infer_instance

/-- `np.argsort(fitness)` (line 539): the list of indices `0, …, len-1` sorted so
that the corresponding fitness values are ascending (ties in index order). -/
def npArgsort (fitness : List ℚ) : List Nat :=
  (List.range fitness.length).insertionSort (argsortLE fitness)

/-- `GenAlgSolver.sort_by_fitness` (lines 533-545).

`sorted_fitness = np.argsort(fitness)[::-1]` is the descending argsort;
`population` and `fitness` are permuted by fancy indexing, but the
printable-fitness array is rebuilt by the loop
`for i in sorted_fitness: pfitness[i] = printable_fitness[i]`,
which copies each entry to its *own* position.  `np.empty_like` produces
uninitialised storage, modelled by the explicit `junk` value (every theorem
below holds for an arbitrary `junk`). -/
def sort_by_fitness (fitness : List ℚ) (population : List (List ℚ))
    (printable_fitness : List ℚ) (junk : ℚ) :
    List ℚ × List (List ℚ) × List ℚ :=
  let sorted_fitness := (npArgsort fitness).reverse
  let population' := sorted_fitness.map (fun i => population.getD i [])
  let fitness' := sorted_fitness.map (fun i => fitness.getD i 0)
  let pfitness := sorted_fitness.foldl
    (fun acc i => acc.set i (printable_fitness.getD i junk))
    (List.replicate printable_fitness.length junk)
  (fitness', population', pfitness)

/-- `np.random.choice(pool, n, replace=True)`: `n` samples from `pool`, each sample
an element of `pool`.  The random source is the oracle `draw`; `draw k % pool.length`
is the position of the `k`-th sample, so every oracle yields elements of `pool`. -/
def npChoiceReplace (pool : List Nat) (n : Nat) (draw : Nat → Nat) : List Nat :=
  (List.range n).map (fun k => pool.getD (draw k % pool.length) 0)

/-- `np.random.choice(pool, n, replace=False)`: `n` samples without replacement;
each drawn element is removed from the pool before the next draw. -/
def npChoiceNoReplace : List Nat → Nat → (Nat → Nat) → List Nat
  | _, 0, _ => []
  | pool, n + 1, draw =>
    let i := draw 0 % pool.length
    pool.getD i 0 :: npChoiceNoReplace (pool.eraseIdx i) n (fun k => draw (k + 1))

/-- The population that `get_crossover_points` samples from (line 550):
`np.arange(len(self.allowed_mutation_genes))`, i.e. the *positions*
`0, …, len(allowed)-1`, not the allowed gene indices themselves. -/
def crossoverSamplingPool (allowed_mutation_genes : List Nat) : List Nat :=
  List.range allowed_mutation_genes.length

/-- `np.ndarray.sort()` sorts the array in place and, as a Python expression,
evaluates to `None`.  The pair returned here is (the sorted contents of the
buffer, the expression value). -/
def ndarraySortInPlace (xs : List Nat) : List Nat × Option (List Nat) :=
  (xs.insertionSort (· ≤ ·), none)

/-- `GenAlgSolver.get_crossover_points` (lines 547-554): draws
`n_crossover_points` positions without replacement from
`np.arange(len(allowed_mutation_genes))` and returns the value of
`np.asarray(crossover_points).sort()` — which is the `None` produced by the
in-place `sort()`. -/
def get_crossover_points (allowed_mutation_genes : List Nat)
    (n_crossover_points : Nat) (draw : Nat → Nat) : Option (List Nat) :=
  let crossover_points :=
    npChoiceNoReplace (crossoverSamplingPool allowed_mutation_genes) n_crossover_points draw
  (ndarraySortInPlace crossover_points).2

/-- `GenAlgSolver.get_number_mutations` (lines 529-531):
`int(np.ceil((pop_size - 1) * n_genes * mutation_rate))`. -/
def get_number_mutations (pop_size n_genes : Nat) (mutation_rate : ℚ) : ℤ :=
  ratCeilZ (((pop_size : ℚ) - 1) * (n_genes : ℚ) * mutation_rate)

/-- The `allowed_mutation_genes` computed by `check_input_base` (lines 102 and
175-180): `np.arange(n_genes)` filtered to remove the excluded gene indices. -/
def allowedMutationGenes (n_genes : Nat) (excluded_genes : List Nat) : List Nat :=
  (List.range n_genes).filter (fun g => g ∉ excluded_genes)

/-- `GenAlgSolver.mutate_population` (base class, lines 609-623): draws
`n_mutations` row indices from `np.arange(1, pop_size)` and `n_mutations` gene
(column) indices from `allowed_mutation_genes`, both uniformly with
replacement, and returns the two index arrays (child classes perform the gene
overwrites). -/
def mutate_population (pop_size : Nat) (allowed_mutation_genes : List Nat)
    (n_mutations : Nat) (rowDraw colDraw : Nat → Nat) : List Nat × List Nat :=
  (npChoiceReplace (List.range' 1 (pop_size - 1)) n_mutations rowDraw,
   npChoiceReplace allowed_mutation_genes n_mutations colDraw)

/-- `GenAlgSolver.interval_selection` (lines 453-462):
`np.argmin(value > self.prob_intervals) - 1`.  The comparison broadcasts to a
boolean array, `np.argmin` picks the first bucket the value does not exceed,
and 1 is subtracted with *no* clipping, so the result is an integer that can be
`-1`. -/
def interval_selection (prob_intervals : List ℚ) (value : ℚ) : ℤ :=
  (npArgminBool (prob_intervals.map (fun x => decide (value > x))) : ℤ) - 1

/-- `GenAlgSolver.get_selection_probabilities` (lines 497-509): the cumulative
probability table for the `roulette_wheel` strategy (rank-weighted, reversed so
the best rank has the most mass) or the `random` strategy (evenly spaced); any
other strategy falls through and returns `None`. -/
def get_selection_probabilities (selection_strategy : String) (pop_keep : Nat) :
    Option (List ℚ) :=
  if selection_strategy = "roulette_wheel" then
    let ranks : List ℚ := (List.range' 1 pop_keep).map (fun i : Nat => (i : ℚ))
    let mating_prob := (ranks.map (fun r => r / ranks.sum)).reverse
    some ((0 : ℚ) :: npCumsum (mating_prob.take (pop_keep + 1)))
  else if selection_strategy = "random" then
    some (npLinspace 0 1 (pop_keep + 1))
  else
    none

/-- `GenAlgSolver.tournament_selection_helper` (lines 486-495): from the pool of
candidate indices, select the one whose fitness is maximal (`np.argmax` takes
the first maximum, so ties go to the earliest candidate). -/
def tournament_selection_helper (selected_individuals : List Nat) (fitness : List ℚ) : Nat :=
  selected_individuals.getD
    (npArgmaxQ (selected_individuals.map (fun i => fitness.getD i 0))) 0

/-- `GenAlgSolver.tournament_selection` (lines 464-484): for each of `n_matings`
matings, draw 3 candidate indices from `[0, range_max)` with replacement and
keep the tournament winner.  `tourDraw k j` is the oracle for the `j`-th
candidate of mating `k`. -/
def tournament_selection (fitness : List ℚ) (range_max n_matings : Nat)
    (tourDraw : Nat → Nat → Nat) : List Nat :=
  (List.range n_matings).map (fun k =>
    tournament_selection_helper
      ((List.range 3).map (fun j => tourDraw k j % range_max)) fitness)

/-- numpy slice `[::2]` (every other element, starting at index 0). -/
def everyOther {α : Type} : List α → List α
  | [] => []
  | [x] => [x]
  | x :: _ :: rest => x :: everyOther rest

/-- `GenAlgSolver.select_parents` (lines 385-451).  `ma, pa` start as
`None, None` and each recognised strategy assigns both; an unrecognised
strategy returns `(None, None)` (the method itself raises nothing).  The
Boltzmann branch replaces `self.prob_intervals` with the freshly computed
Boltzmann table; its numeric computation (over `ℝ`, see
`get_boltzmann_probabilities`) is supplied here as the `boltzmann_intervals`
argument.  The third component is the `self.prob_intervals` state after the
call.  `maDraw`/`paDraw` are the `np.random.rand` oracles for the mother and
father draws. -/
def select_parents (selection_strategy : String) (prob_intervals : List ℚ)
    (boltzmann_intervals : List ℚ) (n_matings : Nat) (fitness : List ℚ)
    (maDraw paDraw : Nat → ℚ) (tourDraw tourDraw2 : Nat → Nat → Nat) :
    Option (List ℤ) × Option (List ℤ) × List ℚ :=
  if selection_strategy = "roulette_wheel" ∨ selection_strategy = "random" then
    (some ((List.range n_matings).map (fun k => interval_selection prob_intervals (maDraw k))),
     some ((List.range n_matings).map (fun k => interval_selection prob_intervals (paDraw k))),
     prob_intervals)
  else if selection_strategy = "boltzmann" then
    (some ((List.range n_matings).map (fun k => interval_selection boltzmann_intervals (maDraw k))),
     some ((List.range n_matings).map (fun k => interval_selection boltzmann_intervals (paDraw k))),
     boltzmann_intervals)
  else if selection_strategy = "two_by_two" then
    let range_max := n_matings * 2
    let ma := everyOther (List.range range_max)
    let pa := everyOther ((List.range range_max).drop 1)
    let ma' := if pa.length < ma.length then ma.dropLast else ma
    (some (ma'.map Int.ofNat), some (pa.map Int.ofNat), prob_intervals)
  else if selection_strategy = "tournament" then
    let range_max := n_matings * 2
    (some ((tournament_selection fitness range_max n_matings tourDraw).map Int.ofNat),
     some ((tournament_selection fitness range_max n_matings tourDraw2).map Int.ofNat),
     prob_intervals)
  else
    (none, none, prob_intervals)

/-- The recognised selection strategies (lines 19-25). -/
def allowed_selection_strategies : List String :=
  ["roulette_wheel", "two_by_two", "random", "tournament", "boltzmann"]

/-- The configuration errors raised at construction: `NoFitnessFunction` and the
three `InvalidInput` cases of `check_input_base` (lines 142-185). -/
inductive ConfigError : Type
  | noFitnessFunction : ConfigError
  | invalidSelectionStrategy : ConfigError
  | invalidPopulationSize : ConfigError
  | invalidExcludedGenes : ConfigError
deriving DecidableEq

/-- The `excluded_genes` argument: `None`, a list/tuple/`ndarray` of gene
indices, or a value of any other type. -/
inductive ExcludedGenesArg : Type
  | noneArg : ExcludedGenesArg
  | seq (genes : List Nat) : ExcludedGenesArg
  | invalidArg : ExcludedGenesArg
deriving DecidableEq

/-- `GenAlgSolver.check_input_base` (lines 142-185).  `has_fitness_attr` models
a subclass that already defines `self.fitness_function` (the `getattr` probe).
On success the returned value is `self.allowed_mutation_genes`:
`np.arange(n_genes)` with the excluded genes filtered out when a sequence is
given. -/
def check_input_base (fitness_function : Option (List ℚ → ℚ)) (has_fitness_attr : Bool)
    (selection_strategy : String) (pop_size : ℤ) (excluded_genes : ExcludedGenesArg)
    (n_genes : Nat) : Except ConfigError (List Nat) :=
  if fitness_function.isNone ∧ has_fitness_attr = false then
    .error .noFitnessFunction
  else if selection_strategy ∉ allowed_selection_strategies then
    .error .invalidSelectionStrategy
  else if pop_size < 2 then
    .error .invalidPopulationSize
  else
    match excluded_genes with
    | .noneArg => .ok (List.range n_genes)
    | .seq genes => .ok (allowedMutationGenes n_genes genes)
    | .invalidArg => .error .invalidExcludedGenes

/-- numpy `.min()` of an array (numpy raises on an empty array; the default `0`
stands in for that case, which never occurs under the population invariants). -/
def npMinR {α : Type} [LinearOrder α] [Zero α] (l : List α) : α := l.foldr min (l.headD 0)

/-- numpy `.max()` of an array. -/
def npMaxR {α : Type} [LinearOrder α] [Zero α] (l : List α) : α := l.foldr max (l.headD 0)

/-- `GenAlgSolver.get_boltzmann_probabilities` (lines 511-527), over `ℝ` with
`np.exp` passed explicitly.  Note: `nfit = fitness[0 : pop_keep + 1]` takes
`pop_keep + 1` values; the `1e-6` term is added *after* the min-max division
(it guards the reciprocal `1 / (…)`, not a zero fitness range); and the final
cumulative sum is over `mating_prob[: pop_keep]` only — the last of the
`pop_keep + 1` normalized probabilities is dropped.  Returns the table
`[0, *np.cumsum(...)]` together with the updated temperature
(`self.temperature += 0.1 * self.temperature`). -/
def get_boltzmann_probabilities {α : Type} [LinearOrderedField α] (exp : α → α)
    (temperature : α) (pop_keep : Nat) (fitness : List α) : List α × α :=
  let nfit := fitness.take (pop_keep + 1)
  let sfit := nfit.map
    (fun f => 1 / ((f - npMinR nfit) / (npMaxR nfit - npMinR nfit) + 1 / 1000000))
  let mating_prob := sfit.map (fun s => exp (-s * (1 / temperature)))
  let C := mating_prob.sum
  let mating_prob2 := mating_prob.map (fun p => p * (1 / C))
  (((0 : α) :: npCumsum (mating_prob2.take pop_keep)),
   temperature + (1 / 10) * temperature)

/-- A chromosome: one population row of gene values (opaque to the engine;
numeric genes lose no generality for the engine logic). -/
abbrev Row := List ℚ

/-- Python list indexing, where a negative index counts from the end
(`population[-1 - ix[i]]` etc.). -/
def pyGetRow (l : List Row) (i : ℤ) : Row :=
  if 0 ≤ i then l.getD i.toNat [] else l.getD (l.length - (-i).toNat) []

/-- The child-class hooks used by `solve`; they are abstract methods of
`GenAlgSolver` (or, for `refill_population`, defined only in child classes) and
are external to the base class embedded here. -/
structure Child where
  initialize_population : List Row
  refill_population : Nat → List Row
  fitness_function : Row → ℚ
  create_offspring : Row → Row → Option (List Nat) → String → Row

/-- Oracles supplying every `np.random` draw made during one `solve` call,
indexed (first argument) by the 0-based loop step of that call.
`boltzIntervals` abstracts the value of `self.get_boltzmann_probabilities
(fitness)` assigned to `self.prob_intervals` in the Boltzmann branch of
`select_parents`; its real-number computation is embedded separately as
`get_boltzmann_probabilities`. -/
structure RunOracle where
  maDraw : Nat → Nat → ℚ
  paDraw : Nat → Nat → ℚ
  tourDraw : Nat → Nat → Nat → Nat
  tourDraw2 : Nat → Nat → Nat → Nat
  boltzIntervals : Nat → List ℚ
  xpDraw : Nat → Nat → Nat → Nat
  rowDraw : Nat → Nat → Nat
  colDraw : Nat → Nat → Nat
  geneDraw : Nat → Nat → ℚ

/-- The configuration of a `GenAlgSolver`, fixed at construction
(`__init__`, lines 101-133): the derived quantities `pop_keep`
(`max(floor(selection_rate * pop_size), 2)`), `n_matings`
(`floor((pop_size - pop_keep) / 2)`) and `n_mutations`
(`get_number_mutations`) are stored as fields. -/
structure Config where
  n_genes : Nat
  pop_size : Nat
  pop_keep : Nat
  n_matings : Nat
  n_mutations : Nat
  n_crossover_points : Nat
  max_gen : Nat
  max_conv : Nat
  selection_strategy : String
  allowed_mutation_genes : List Nat
  prune_duplicates : Bool

/-- The persistent solver state: the instance fields read and written by
`solve` that survive across calls (lines 92-100, 126, 133 and 341-345).
`best_individual_` starts as `None`, modelled by the empty row. -/
structure SolverState where
  generations_ : Nat
  best_individual_ : Row
  best_fitness_ : ℚ
  best_pfitness_ : ℚ
  population_ : Option (List Row)
  fitness_ : Option (List ℚ)
  printable_fitness : Option (List ℚ)
  mean_fitness_ : Option (List ℚ)
  max_fitness_ : Option (List ℚ)
  temperature : ℚ
  prob_intervals : List ℚ

/-- The instance fields as initialised by `__init__` (lines 92-100, 126, 133):
counters and best-so-far at zero, no stored population or histories,
`temperature = 100`, and the static probability table of the chosen strategy
(`None`, modelled as `[]`, for the strategies that do not use one). -/
def initSolverState (selection_strategy : String) (pop_keep : Nat) : SolverState :=
  { generations_ := 0
    best_individual_ := []
    best_fitness_ := 0
    best_pfitness_ := 0
    population_ := none
    fitness_ := none
    printable_fitness := none
    mean_fitness_ := none
    max_fitness_ := none
    temperature := 100
    prob_intervals := (get_selection_probabilities selection_strategy pop_keep).getD [] }

/-- `np.isclose(a, b)` with the default tolerances `rtol = 1e-5`,
`atol = 1e-8` (used at line 323): `|a - b| ≤ atol + rtol * |b|`. -/
def np_isclose (a b : ℚ) : Bool :=
  decide (|a - b| ≤ 1 / 100000000 + (1 / 100000) * |b|)

/-- `GenAlgSolver.calculate_fitness` (lines 358-383), scalarizer-free branch:
the fitness function is applied to every row; the printable fitness equals the
scalar fitness. -/
def calculate_fitness (fitness_function : Row → ℚ) (population : List Row) :
    List ℚ × List ℚ :=
  let fitness := population.map fitness_function
  (fitness, fitness)

/-- The offspring placement loop (lines 282-293):
`ix = np.arange(0, pop_size - pop_keep - 1, 2)`, so `ix[i] = 2 * i`;
offspring overwrite rows `-1 - ix[i]` and `-1 - ix[i] - 1`, i.e. rows
`pop_size - 1 - 2i` and `pop_size - 2 - 2i`, reading the parent rows from the
population as already modified by earlier iterations (in-place numpy update). -/
def offspring_step (child : Child) (pop_size n_matings : Nat)
    (ma pa : List ℤ) (xp : List (Option (List Nat))) (population : List Row) :
    List Row :=
  (List.range n_matings).foldl
    (fun pop i =>
      let mother := pyGetRow pop (ma.getD i 0)
      let father := pyGetRow pop (pa.getD i 0)
      let pop1 := pop.set (pop_size - 1 - 2 * i)
        (child.create_offspring mother father (xp.getD i none) "first")
      pop1.set (pop_size - 1 - 2 * i - 1)
        (child.create_offspring father mother (xp.getD i none) "second"))
    population

/-- Modelled from the spec: the gene-overwrite part of the child-class
`mutate_population` overrides, which are not part of the base class under
`src`.  Per the spec each mutation event overwrites the single gene at its
(row, column) target with a freshly generated gene value (`geneDraw k` for
event `k`); later events overwrite earlier ones. -/
def apply_mutations (population : List Row) (rows cols : List Nat)
    (geneDraw : Nat → ℚ) : List Row :=
  (List.range rows.length).foldl
    (fun pop k =>
      let r := rows.getD k 0
      let c := cols.getD k 0
      pop.set r ((pop.getD r []).set c (geneDraw k)))
    population

/-- The duplicate-pruning pass (lines 296-305): start from row 0 and keep each
subsequent row (`i` ranging over `1, …, pop_size - 1`) only if it differs from
the last kept row. -/
def prune_population (pop_size : Nat) (population : List Row) : List Row :=
  (List.range' 1 (pop_size - 1)).foldl
    (fun pruned i =>
      if population.getD i [] = pruned.getLastD [] then pruned
      else pruned ++ [population.getD i []])
    [population.headD []]

/-- Lines 305-312: refill the pruned population back to `pop_size` rows with
fresh chromosomes; when no row was pruned (`nrefill = 0`) the population is
left untouched. -/
def prune_and_refill (pop_size : Nat) (refill_population : Nat → List Row)
    (population : List Row) : List Row :=
  let pruned := prune_population pop_size population
  let nrefill := pop_size - pruned.length
  if 0 < nrefill then pruned ++ refill_population nrefill else population

/-- The printable-fitness update loop (lines 317-318):
`for i in range(1, len(rest_fitness)): printable_fitness[i] =
rest_printable_fitness[i]` (note the shared index: entry `i` receives the
printable fitness of population row `i + 1`, and entry 0 of the rest is
dropped). -/
def pfPatch (printable_fitness rest_printable_fitness : List ℚ) : List ℚ :=
  (List.range' 1 (rest_printable_fitness.length - 1)).foldl
    (fun acc i => acc.set i (rest_printable_fitness.getD i 0)) printable_fitness

/-- The per-call loop state of `solve`: the local variables of the generational
loop (`population`, `fitness`, `printable_fitness`, `mean_fitness`,
`max_fitness`, `conv`, `gen_n`) together with the instance fields the loop
mutates.  `stagnation_trace` is a specification-only ghost field recording, for
each generation executed in this call, whether the `np.isclose` stagnation
test succeeded; no other field depends on it. -/
structure GenState where
  population : List Row
  fitness : List ℚ
  printable_fitness : List ℚ
  mean_fitness : List ℚ
  max_fitness : List ℚ
  generations_ : Nat
  best_individual_ : Row
  best_fitness_ : ℚ
  best_pfitness_ : ℚ
  temperature : ℚ
  prob_intervals : List ℚ
  conv : Nat
  gen_n : Nat
  stagnation_trace : List Bool

/-- One generation: the body of the `for` loop in `solve` (lines 276-337),
at loop step `k`.  The Boltzmann branch of `select_parents` updates
`self.prob_intervals` (to the oracle value, see `RunOracle.boltzIntervals`)
and `self.temperature` (`+= 0.1 * self.temperature`, line 525). -/
def generation (cfg : Config) (child : Child) (orc : RunOracle) (k : Nat)
    (s : GenState) : GenState :=
  let gen_n := s.gen_n + 1
  let generations_ := s.generations_ + 1
  let mean_fitness := s.mean_fitness ++ [npMean s.fitness]
  let max_fitness := s.max_fitness ++ [s.fitness.headD 0]
  let sel := select_parents cfg.selection_strategy s.prob_intervals
    (orc.boltzIntervals k) cfg.n_matings s.fitness (orc.maDraw k) (orc.paDraw k)
    (orc.tourDraw k) (orc.tourDraw2 k)
  let ma := sel.1.getD []
  let pa := sel.2.1.getD []
  let prob_intervals := sel.2.2
  let temperature := if cfg.selection_strategy = "boltzmann"
    then s.temperature + (1 / 10) * s.temperature else s.temperature
  let xp := (List.range cfg.n_matings).map
    (fun i => get_crossover_points cfg.allowed_mutation_genes
      cfg.n_crossover_points (orc.xpDraw k i))
  let pop1 := offspring_step child cfg.pop_size cfg.n_matings ma pa xp s.population
  let mutation := mutate_population cfg.pop_size cfg.allowed_mutation_genes
    cfg.n_mutations (orc.rowDraw k) (orc.colDraw k)
  let pop2 := apply_mutations pop1 mutation.1 mutation.2 (orc.geneDraw k)
  let pop3 := if cfg.prune_duplicates
    then prune_and_refill cfg.pop_size child.refill_population pop2
    else pop2
  let rest := calculate_fitness child.fitness_function (pop3.drop 1)
  let fitness1 := s.fitness.headD 0 :: rest.1
  let printable1 := pfPatch s.printable_fitness rest.2
  let sorted := sort_by_fitness fitness1 pop3 printable1 0
  let stagnant := np_isclose s.best_fitness_ (sorted.1.headD 0)
  { population := sorted.2.1
    fitness := sorted.1
    printable_fitness := sorted.2.2
    mean_fitness := mean_fitness
    max_fitness := max_fitness
    generations_ := generations_
    best_individual_ := sorted.2.1.headD []
    best_fitness_ := sorted.1.headD 0
    best_pfitness_ := sorted.2.2.headD 0
    temperature := temperature
    prob_intervals := prob_intervals
    conv := if stagnant then s.conv + 1 else s.conv
    gen_n := gen_n
    stagnation_trace := s.stagnation_trace ++ [stagnant] }

/-- The `for _ in range(niter)` loop of `solve` (line 275) with its
end-of-generation break (lines 338-339): the break condition
`gen_n >= niter or conv > max_conv` is evaluated once per iteration, after the
full generation body. -/
def solveLoop (cfg : Config) (child : Child) (orc : RunOracle) (niter : Nat) :
    Nat → GenState → GenState
  | 0, s => s
  | fuel + 1, s =>
    let s' := generation cfg child orc (niter - fuel - 1) s
    if niter ≤ s'.gen_n ∨ cfg.max_conv < s'.conv then s'
    else solveLoop cfg child orc niter fuel s'

/-- The effective iteration budget (lines 271-274): `min(max_gen, niter)` when
`niter` is an integer, else `max_gen`. -/
def solveNiter (cfg : Config) (niter : Option Nat) : Nat :=
  match niter with
  | some n => min cfg.max_gen n
  | none => cfg.max_gen

/-- The loop state at the top of the `for` loop of `solve` (lines 246-270):
stored histories and population are reused when present (fresh ones otherwise);
the freshly computed fitness of the starting population is sorted; and the
local counters are initialised to `gen_n = 1` and `conv = 0`. -/
def solveInitGenState (child : Child) (st : SolverState) : GenState :=
  let population := st.population_.getD child.initialize_population
  let cf := calculate_fitness child.fitness_function population
  let sorted := sort_by_fitness cf.1 population cf.2 0
  { population := sorted.2.1
    fitness := sorted.1
    printable_fitness := sorted.2.2
    mean_fitness := st.mean_fitness_.getD []
    max_fitness := st.max_fitness_.getD []
    generations_ := st.generations_
    best_individual_ := st.best_individual_
    best_fitness_ := st.best_fitness_
    best_pfitness_ := st.best_pfitness_
    temperature := st.temperature
    prob_intervals := st.prob_intervals
    conv := 0
    gen_n := 1
    stagnation_trace := [] }

/-- `GenAlgSolver.solve` (lines 235-356, with logging, plotting and timing
omitted): run the generational loop and write the loop state back into the
instance fields (lines 341-345).  The returned pair is (the persistent state
after the call, the final loop state — exposed so the loop-local variables
`conv` and `gen_n` can be observed). -/
def solve (cfg : Config) (child : Child) (orc : RunOracle) (st : SolverState)
    (niter : Option Nat) : SolverState × GenState :=
  let gf := solveLoop cfg child orc (solveNiter cfg niter) (solveNiter cfg niter)
    (solveInitGenState child st)
  ({ st with
      generations_ := gf.generations_
      best_individual_ := gf.best_individual_
      best_fitness_ := gf.best_fitness_
      best_pfitness_ := gf.best_pfitness_
      population_ := some gf.population
      fitness_ := some gf.fitness
      printable_fitness := some gf.printable_fitness
      mean_fitness_ := some gf.mean_fitness
      max_fitness_ := some gf.max_fitness
      temperature := gf.temperature
      prob_intervals := gf.prob_intervals }, gf)

/-- A concrete configuration for the concrete runs: 1 gene, 2 rows, elite of 2
(hence no matings), one mutation event per generation, `two_by_two` selection,
no duplicate pruning. -/
def exampleConfig : Config :=
  { n_genes := 1, pop_size := 2, pop_keep := 2, n_matings := 0, n_mutations := 1,
    n_crossover_points := 1, max_gen := 100, max_conv := 100,
    selection_strategy := "two_by_two", allowed_mutation_genes := [0],
    prune_duplicates := false }

/-- A concrete child: population of two one-gene rows, fitness = the gene
value. -/
def exampleChild : Child :=
  { initialize_population := [[0], [0]]
    refill_population := fun n => List.replicate n [0]
    fitness_function := fun r => r.headD 0
    create_offspring := fun a _ _ _ => a }

/-- A concrete random oracle: the mutation of the first generation writes gene
value 0 (no change), later generations write 100 (a large improvement). -/
def exampleOracle : RunOracle :=
  { maDraw := fun _ _ => 1 / 2, paDraw := fun _ _ => 1 / 2
    tourDraw := fun _ _ _ => 0, tourDraw2 := fun _ _ _ => 0
    boltzIntervals := fun _ => [], xpDraw := fun _ _ _ => 0
    rowDraw := fun _ _ => 0, colDraw := fun _ _ => 0
    geneDraw := fun k _ => if k = 0 then 0 else 100 }

/-- The persistent state after a first concrete `solve` call, used to witness
resumption. -/
def exampleResumedState : SolverState :=
  (solve exampleConfig exampleChild exampleOracle (initSolverState ("two_by_two") 2)
    (some 2)).1

/-- `ratCeilZ` agrees with the mathematical ceiling. -/
theorem ratCeilZ_eq_ceil (q : ℚ) : ratCeilZ q = ⌈q⌉ := by
  rw [ratCeilZ]
  have h : ((-q).floor : ℤ) = ⌊-q⌋ := by rw [Rat.floor_def', Rat.floor_def]
  rw [h, Int.floor_neg, neg_neg]

/-- C1: at fitness `[1, 2]`, population `[[10], [20]]`, printable fitness `[5, 7]`,
`sort_by_fitness` sorts the fitness descending to `[2, 1]` and permutes the
population rows to `[[20], [10]]`, but returns the printable-fitness entries
unchanged as `[5, 7]` rather than permuted to `[7, 5]`: the row `[20]`, whose
original printable fitness is `7`, is now aligned with printable fitness `5`,
so population rows do not stay paired with their printable fitness. -/
theorem sort_by_fitness_pfitness_not_permuted :
    sort_by_fitness [1, 2] [[10], [20]] [5, 7] 0 = ([2, 1], [[20], [10]], [5, 7]) ∧
      ([5, 7] : List ℚ) ≠ [7, 5] := by
  constructor
  · decide
  · decide

/-- C2: with 4 genes and gene 2 excluded (`allowed = [0, 1, 3]`),
`get_crossover_points` returns `None` (the value of the in-place
`np.ndarray.sort()`), not a sorted array of gene indices; moreover its sampling
pool is `np.arange(len(allowed)) = [0, 1, 2]`, which contains the excluded gene
`2` and omits the allowed gene `3`, so the points are not drawn from the
allowed gene set. -/
theorem get_crossover_points_returns_none :
    get_crossover_points [0, 1, 3] 2 (fun _ => 0) = none ∧
      (∀ pts : List Nat, get_crossover_points [0, 1, 3] 2 (fun _ => 0) ≠ some pts) ∧
      2 ∈ crossoverSamplingPool [0, 1, 3] ∧ 2 ∉ [0, 1, 3] ∧
      3 ∉ crossoverSamplingPool [0, 1, 3] := by
  refine ⟨rfl, ?_, by decide, by decide, by decide⟩
  intro pts h
  simp [get_crossover_points, ndarraySortInPlace] at h

/-- Elements produced by `npChoiceReplace` always belong to the pool. -/
theorem npChoiceReplace_mem {pool : List Nat} (hpool : pool ≠ [])
    {n : Nat} {draw : Nat → Nat} {x : Nat} (hx : x ∈ npChoiceReplace pool n draw) :
    x ∈ pool := by
  rcases List.mem_map.mp hx with ⟨k, _, rfl⟩
  have hlen : 0 < pool.length := List.length_pos.mpr hpool
  have hlt : draw k % pool.length < pool.length := Nat.mod_lt _ hlen
  rw [List.getD_eq_getElem?_getD, List.getElem?_eq_getElem hlt]
  exact List.getElem_mem hlt

/-- `npChoiceReplace` returns exactly `n` samples. -/
theorem npChoiceReplace_length (pool : List Nat) (n : Nat) (draw : Nat → Nat) :
    (npChoiceReplace pool n draw).length = n := by
  simp [npChoiceReplace]

/-- C7: for every configuration with `pop_size ≥ 2` and a nonempty allowed gene
set, `mutate_population` with `n = get_number_mutations pop_size n_genes rate`
events (which equals `⌈(pop_size - 1) * n_genes * rate⌉`) returns exactly `n`
row indices and `n` gene indices, every row index lies in `[1, pop_size)` (row 0
is never targeted), and every gene index belongs to
`allowedMutationGenes n_genes excluded` — in particular no gene index from the
excluded set is ever targeted. -/
theorem mutate_population_targets (pop_size n_genes : Nat) (mutation_rate : ℚ)
    (excluded_genes : List Nat) (rowDraw colDraw : Nat → Nat)
    (hpop : 2 ≤ pop_size)
    (hallowed : allowedMutationGenes n_genes excluded_genes ≠ []) :
    get_number_mutations pop_size n_genes mutation_rate =
        ⌈((pop_size : ℚ) - 1) * (n_genes : ℚ) * mutation_rate⌉ ∧
    ∀ n : Nat,
      (mutate_population pop_size (allowedMutationGenes n_genes excluded_genes)
          n rowDraw colDraw).1.length = n ∧
      (mutate_population pop_size (allowedMutationGenes n_genes excluded_genes)
          n rowDraw colDraw).2.length = n ∧
      (∀ r ∈ (mutate_population pop_size (allowedMutationGenes n_genes excluded_genes)
          n rowDraw colDraw).1, 1 ≤ r ∧ r < pop_size) ∧
      (∀ c ∈ (mutate_population pop_size (allowedMutationGenes n_genes excluded_genes)
          n rowDraw colDraw).2, c ∈ allowedMutationGenes n_genes excluded_genes ∧
            c ∉ excluded_genes) := by
  refine ⟨ratCeilZ_eq_ceil _, fun n => ?_⟩
  have hrows : (List.range' 1 (pop_size - 1)) ≠ [] := by
    intro h
    have h2 := congrArg List.length h
    simp [List.length_range'] at h2
    omega
  refine ⟨npChoiceReplace_length _ _ _, npChoiceReplace_length _ _ _, ?_, ?_⟩
  · intro r hr
    have := npChoiceReplace_mem hrows hr
    have hmem := List.mem_range'_1.mp this
    omega
  · intro c hc
    have hmem := npChoiceReplace_mem hallowed hc
    refine ⟨hmem, ?_⟩
    have h2 : c < n_genes ∧ c ∉ excluded_genes := by
      simpa [allowedMutationGenes] using hmem
    exact h2.2

/-- Witness for C7 at `pop_size = 5`, `n_genes = 5`, excluding genes 2 and 4. -/
theorem mutate_population_targets_witness :
    2 ≤ 5 ∧ allowedMutationGenes 5 [2, 4] ≠ [] ∧
      ((mutate_population 5 (allowedMutationGenes 5 [2, 4]) 3 (fun _ => 7) (fun _ => 1)).1.length = 3 ∧
       ∀ c ∈ (mutate_population 5 (allowedMutationGenes 5 [2, 4]) 3 (fun _ => 7) (fun _ => 1)).2,
         c ∈ allowedMutationGenes 5 [2, 4] ∧ c ∉ [2, 4]) := by
  refine ⟨by decide, by decide, ?_, ?_⟩
  · exact ((mutate_population_targets 5 5 1 [2, 4] (fun _ => 7) (fun _ => 1)
      (by decide) (by decide)).2 3).1
  · exact ((mutate_population_targets 5 5 1 [2, 4] (fun _ => 7) (fun _ => 1)
      (by decide) (by decide)).2 3).2.2.2

/-- The length of a cumulative sum. -/
theorem cumsumFrom_length {α : Type} [Add α] (acc : α) (l : List α) :
    (cumsumFrom acc l).length = l.length := by
  induction l generalizing acc with
  | nil => rfl
  | cons x xs ih => simp [cumsumFrom, ih]

/-- The last entry of a cumulative sum started at `acc` is `acc + sum`. -/
theorem cumsumFrom_getLastD {α : Type} [AddCommMonoid α] (acc : α) (l : List α) :
    (cumsumFrom acc l).getLastD acc = acc + l.sum := by
  induction l generalizing acc with
  | nil => simp [cumsumFrom]
  | cons x xs ih =>
    rw [cumsumFrom, List.getLastD_cons]
    cases xs with
    | nil => simp [cumsumFrom]
    | cons y ys => rw [ih (acc + x)]; simp [add_assoc]

/-- The last entry of `np.cumsum l` is `l.sum`. -/
theorem npCumsum_getLastD (l : List ℚ) : (npCumsum l).getLastD 0 = l.sum := by
  have := cumsumFrom_getLastD (0 : ℚ) l
  simpa [npCumsum] using this

/-- Dividing every element of a list by a constant divides the sum. -/
theorem sum_map_div (l : List ℚ) (c : ℚ) :
    (l.map (fun x => x / c)).sum = l.sum / c := by
  induction l with
  | nil => simp
  | cons x xs ih => simp [ih, add_div]

/-- The last element (with default) of a nonempty list is a member. -/
theorem getLastD_mem {α : Type} (l : List α) (d : α) (h : l ≠ []) :
    l.getLastD d ∈ l := by
  induction l generalizing d with
  | nil => exact absurd rfl h
  | cons a t ih =>
    cases t with
    | nil => simp
    | cons b u =>
      rw [List.getLastD_cons]
      exact List.mem_cons_of_mem _ (ih a (by simp))

/-- Range of `interval_selection`: if the table starts with `0`, the draw is
strictly positive, and some table entry is at least the draw, then the result
lies in `[0, length - 1)`. -/
theorem interval_selection_range (tbl : List ℚ) (v : ℚ) (hv0 : 0 < v)
    (hhead : tbl.head? = some 0) (hx : ∃ x ∈ tbl, v ≤ x) :
    0 ≤ interval_selection tbl v ∧ interval_selection tbl v < (tbl.length : ℤ) - 1 := by
  obtain ⟨t, rfl⟩ : ∃ t, tbl = 0 :: t := by
    cases tbl with
    | nil => simp at hhead
    | cons a t =>
      refine ⟨t, ?_⟩
      simp at hhead
      rw [hhead]
  obtain ⟨x, hxmem, hxv⟩ := hx
  have hxne : x ≠ 0 := by
    intro h; rw [h] at hxv; exact absurd (lt_of_lt_of_le hv0 hxv) (lt_irrefl 0)
  have hxt : x ∈ t := by
    rcases List.mem_cons.mp hxmem with h | h
    · exact absurd h hxne
    · exact h
  have hfalse : false ∈ t.map (fun y => decide (v > y)) := by
    refine List.mem_map.mpr ⟨x, hxt, ?_⟩
    simp [not_lt.mpr hxv]
  have hcontains : ((0 :: t).map (fun y => decide (v > y))).contains false = true := by
    rw [List.contains_eq_any_beq]
    refine List.any_eq_true.mpr ⟨false, List.mem_cons_of_mem _ hfalse, by simp⟩
  have hheadtrue : decide (v > 0) = true := decide_eq_true hv0
  have hfind : ((0 :: t).map (fun y => decide (v > y))).findIdx (· = false) =
      (t.map (fun y => decide (v > y))).findIdx (· = false) + 1 := by
    rw [List.map_cons, List.findIdx_cons, hheadtrue]
    rfl
  have hlt : (t.map (fun y => decide (v > y))).findIdx (· = false) <
      (t.map (fun y => decide (v > y))).length :=
    List.findIdx_lt_length.mpr ⟨false, hfalse, by simp⟩
  rw [interval_selection, npArgminBool, if_pos hcontains, hfind]
  constructor
  · omega
  · have : (t.map (fun y => decide (v > y))).length = t.length := List.length_map _ _
    simp only [List.length_cons]
    omega

/-- Structure of the `roulette_wheel` and `random` probability tables: both
exist, start at `0`, have `pop_keep + 1` entries, and contain the entry `1`
(the cumulative total). -/
theorem selection_table_spec (strategy : String)
    (hstrat : strategy = "roulette_wheel" ∨ strategy = "random")
    (pop_keep : Nat) (hpk : 1 ≤ pop_keep) :
    ∃ tbl, get_selection_probabilities strategy pop_keep = some tbl ∧
      tbl.head? = some 0 ∧ tbl.length = pop_keep + 1 ∧ (1 : ℚ) ∈ tbl := by
  rcases hstrat with h | h
  · subst h
    set ranks : List ℚ := (List.range' 1 pop_keep).map (fun i : Nat => (i : ℚ)) with hranks
    have hrankslen : ranks.length = pop_keep := by simp [hranks]
    have hranksne : ranks ≠ [] := by
      intro h
      rw [h] at hrankslen
      simp at hrankslen
      omega
    have hrankspos : ∀ x ∈ ranks, (0 : ℚ) < x := by
      intro x hx
      rcases List.mem_map.mp hx with ⟨i, hi, rfl⟩
      have := (List.mem_range'_1.mp hi).1
      exact_mod_cast Nat.cast_pos.mpr (by omega)
    have hsumpos : (0 : ℚ) < ranks.sum := List.sum_pos ranks hrankspos hranksne
    set mp : List ℚ := (ranks.map (fun r => r / ranks.sum)).reverse with hmp
    have hmplen : mp.length = pop_keep := by simp [hmp, hrankslen]
    have hmpsum : mp.sum = 1 := by
      rw [hmp, List.sum_reverse, sum_map_div, div_self (ne_of_gt hsumpos)]
    have htake : mp.take (pop_keep + 1) = mp := List.take_of_length_le (by omega)
    have hcslen : (npCumsum mp).length = pop_keep := by
      rw [npCumsum, cumsumFrom_length, hmplen]
    have hcsne : npCumsum mp ≠ [] := by
      intro h
      rw [h] at hcslen
      simp at hcslen
      omega
    have hlast : (npCumsum mp).getLastD 0 = 1 := by rw [npCumsum_getLastD, hmpsum]
    refine ⟨(0 : ℚ) :: npCumsum mp, ?_, rfl, by simp [hcslen], ?_⟩
    · rw [get_selection_probabilities, if_pos rfl]
      simp only [← hranks, ← hmp, htake]
    · exact List.mem_cons_of_mem _ (hlast ▸ getLastD_mem _ 0 hcsne)
  · subst h
    have hcast : ((pop_keep : ℚ) + 1) - 1 = (pop_keep : ℚ) := by ring
    have hne : (pop_keep : ℚ) ≠ 0 := Nat.cast_ne_zero.mpr (by omega)
    refine ⟨npLinspace 0 1 (pop_keep + 1), by rw [get_selection_probabilities]; rfl,
      ?_, by simp [npLinspace], ?_⟩
    · rw [npLinspace, List.range_succ_eq_map]
      simp
    · refine List.mem_map.mpr ⟨pop_keep, List.mem_range.mpr (Nat.lt_succ_self _), ?_⟩
      push_cast
      rw [hcast]
      field_simp

/-- C6 (amended): for the `roulette_wheel` and `random` strategies, when every
uniform draw lies in the open interval `(0, 1)`, `select_parents` returns two
index lists of length `n_matings` whose entries all lie in `[0, pop_keep)`.
(The lookup itself performs no clipping; a draw of exactly `0` — a legal value
of `np.random.rand`, which samples `[0, 1)` — escapes this range, see the
counterexample.) -/
theorem select_parents_roulette_random_in_range (strategy : String)
    (hstrat : strategy = "roulette_wheel" ∨ strategy = "random")
    (pop_keep n_matings : Nat) (hpk : 1 ≤ pop_keep)
    (boltzmann_intervals fitness : List ℚ) (maDraw paDraw : Nat → ℚ)
    (td td2 : Nat → Nat → Nat)
    (hma : ∀ k, 0 < maDraw k ∧ maDraw k < 1)
    (hpa : ∀ k, 0 < paDraw k ∧ paDraw k < 1) :
    ∃ ma pa : List ℤ,
      (select_parents strategy ((get_selection_probabilities strategy pop_keep).getD [])
          boltzmann_intervals n_matings fitness maDraw paDraw td td2) =
        (some ma, some pa, (get_selection_probabilities strategy pop_keep).getD []) ∧
      ma.length = n_matings ∧ pa.length = n_matings ∧
      (∀ i ∈ ma, 0 ≤ i ∧ i < (pop_keep : ℤ)) ∧
      (∀ i ∈ pa, 0 ≤ i ∧ i < (pop_keep : ℤ)) := by
  obtain ⟨tbl, htbl, hhead, hlen, h1⟩ := selection_table_spec strategy hstrat pop_keep hpk
  have htblD : (get_selection_probabilities strategy pop_keep).getD [] = tbl := by
    rw [htbl]; rfl
  have hbranch : (strategy = "roulette_wheel" ∨ strategy = "random") := hstrat
  have hrange : ∀ (draw : Nat → ℚ), (∀ k, 0 < draw k ∧ draw k < 1) →
      ∀ i ∈ (List.range n_matings).map (fun k => interval_selection tbl (draw k)),
        0 ≤ i ∧ i < (pop_keep : ℤ) := by
    intro draw hdraw i hi
    rcases List.mem_map.mp hi with ⟨k, _, rfl⟩
    have h := interval_selection_range tbl (draw k) (hdraw k).1 hhead
      ⟨1, h1, le_of_lt (hdraw k).2⟩
    rw [hlen] at h
    constructor
    · exact h.1
    · have := h.2
      push_cast at this ⊢
      omega
  refine ⟨(List.range n_matings).map (fun k => interval_selection tbl (maDraw k)),
          (List.range n_matings).map (fun k => interval_selection tbl (paDraw k)),
          ?_, by simp, by simp, hrange maDraw hma, hrange paDraw hpa⟩
  rw [htblD, select_parents, if_pos hbranch]

/-- Witness for the amended C6 at `pop_keep = 2`, `n_matings = 1`, draw `1/2`. -/
theorem select_parents_roulette_random_in_range_witness :
    ∃ ma pa : List ℤ,
      (select_parents ("roulette_wheel")
          ((get_selection_probabilities ("roulette_wheel") 2).getD [])
          [] 1 [] (fun _ => 1/2) (fun _ => 1/2) (fun _ _ => 0) (fun _ _ => 0)) =
        (some ma, some pa, (get_selection_probabilities ("roulette_wheel") 2).getD []) ∧
      ma.length = 1 ∧ pa.length = 1 ∧
      (∀ i ∈ ma, 0 ≤ i ∧ i < (2 : ℤ)) ∧ (∀ i ∈ pa, 0 ≤ i ∧ i < (2 : ℤ)) := by
  have h := select_parents_roulette_random_in_range ("roulette_wheel") (Or.inl rfl)
    2 1 (by omega) [] [] (fun _ => 1/2) (fun _ => 1/2) (fun _ _ => 0) (fun _ _ => 0)
    (fun k => by norm_num) (fun k => by norm_num)
  exact_mod_cast h

/-- C6 (counterexample): with `pop_keep = 2` the roulette cumulative table is
`[0, 2/3, 1]`; a uniform draw of exactly `0` (a legal value of
`np.random.rand`, which samples `[0, 1)`) makes every comparison `0 > x` false,
`np.argmin` returns index `0`, and `interval_selection` returns `-1`, an index
outside `[0, pop_size)` (numpy interprets `-1` as the *last* population row).
Hence `select_parents` can return a parent index outside `[0, pop_size)` and
performs no clipping. -/
theorem select_parents_zero_draw_gives_negative_index :
    (get_selection_probabilities ("roulette_wheel") 2).getD [] = [0, 2/3, 1] ∧
    interval_selection [0, 2/3, 1] 0 = -1 ∧
    (select_parents ("roulette_wheel") [0, 2/3, 1] [] 1 []
        (fun _ => 0) (fun _ => 0) (fun _ _ => 0) (fun _ _ => 0)).1 = some [-1] ∧
    ¬ (0 ≤ (-1 : ℤ)) := by
  have hr : List.range' 1 2 = [1, 2] := by decide
  have htbl : (get_selection_probabilities ("roulette_wheel") 2).getD [] = [0, 2/3, 1] := by
    rw [get_selection_probabilities, if_pos rfl, hr]
    norm_num [npCumsum, cumsumFrom]
  have hsel : interval_selection [0, 2/3, 1] 0 = -1 := by
    norm_num [interval_selection, npArgminBool, List.contains_eq_any_beq, List.findIdx_cons]
  refine ⟨htbl, hsel, ?_, by omega⟩
  rw [select_parents, if_pos (Or.inl rfl)]
  simp [hsel]

/-- C9: construction raises a configuration error exactly when the fitness
evaluator is missing (no argument and no inherited attribute), or the selection
strategy is not one of the five recognised names, or the population size is
below 2, or the excluded-genes argument is present but not a
list/tuple/array.  Moreover, for every recognised strategy `select_parents`
always assigns both parent index lists (it contains no raise at all), so no
invalid-strategy error can occur at selection time. -/
theorem check_input_base_error_iff :
    (∀ (fitness_function : Option (List ℚ → ℚ)) (has_fitness_attr : Bool)
        (selection_strategy : String) (pop_size : ℤ)
        (excluded_genes : ExcludedGenesArg) (n_genes : Nat),
      (∃ e, check_input_base fitness_function has_fitness_attr selection_strategy
          pop_size excluded_genes n_genes = .error e) ↔
        ((fitness_function = none ∧ has_fitness_attr = false) ∨
          selection_strategy ∉ allowed_selection_strategies ∨
          pop_size < 2 ∨ excluded_genes = .invalidArg)) ∧
    (∀ strategy ∈ allowed_selection_strategies,
      ∀ (prob_intervals boltzmann_intervals fitness : List ℚ) (n_matings : Nat)
        (maDraw paDraw : Nat → ℚ) (td td2 : Nat → Nat → Nat),
        (select_parents strategy prob_intervals boltzmann_intervals n_matings
            fitness maDraw paDraw td td2).1.isSome = true ∧
        (select_parents strategy prob_intervals boltzmann_intervals n_matings
            fitness maDraw paDraw td td2).2.1.isSome = true) := by
  constructor
  · intro ff attr strat ps excl ng
    rw [check_input_base.eq_def]
    by_cases h1 : ff.isNone ∧ attr = false
    · rw [if_pos h1]
      exact iff_of_true ⟨_, rfl⟩ (Or.inl ⟨Option.isNone_iff_eq_none.mp h1.1, h1.2⟩)
    · rw [if_neg h1]
      by_cases h2 : strat ∈ allowed_selection_strategies
      · rw [if_neg (not_not_intro h2)]
        by_cases h3 : ps < 2
        · rw [if_pos h3]
          exact iff_of_true ⟨_, rfl⟩ (Or.inr (Or.inr (Or.inl h3)))
        · rw [if_neg h3]
          have hnotrest : ¬ ((ff = none ∧ attr = false) ∨
              strat ∉ allowed_selection_strategies ∨ ps < 2) := by
            rintro (⟨hff, hattr⟩ | h | h)
            · exact h1 ⟨Option.isNone_iff_eq_none.mpr hff, hattr⟩
            · exact h h2
            · exact h3 h
          cases excl with
          | noneArg =>
            refine iff_of_false ?_ ?_
            · rintro ⟨e, h⟩
              cases h
            · rintro (h | h | h | h)
              · exact hnotrest (Or.inl h)
              · exact hnotrest (Or.inr (Or.inl h))
              · exact hnotrest (Or.inr (Or.inr h))
              · cases h
          | seq genes =>
            refine iff_of_false ?_ ?_
            · rintro ⟨e, h⟩
              cases h
            · rintro (h | h | h | h)
              · exact hnotrest (Or.inl h)
              · exact hnotrest (Or.inr (Or.inl h))
              · exact hnotrest (Or.inr (Or.inr h))
              · cases h
          | invalidArg =>
            exact iff_of_true ⟨_, rfl⟩ (Or.inr (Or.inr (Or.inr rfl)))
      · rw [if_pos h2]
        exact iff_of_true ⟨_, rfl⟩ (Or.inr (Or.inl h2))
  · intro strat hstrat pi bi fit nm md pd td td2
    have : strat = "roulette_wheel" ∨ strat = "two_by_two" ∨ strat = "random" ∨
        strat = "tournament" ∨ strat = "boltzmann" := by
      simpa [allowed_selection_strategies] using hstrat
    rcases this with rfl | rfl | rfl | rfl | rfl <;>
      simp [select_parents]

/-- Witness for C9: no fitness function and no inherited attribute is an error;
the `tournament` strategy produces both parent lists at selection time. -/
theorem check_input_base_error_iff_witness :
    (∃ e, check_input_base none false ("roulette_wheel") 5 .noneArg 3 = .error e) ∧
      (select_parents ("tournament") [] [] 2 [1, 2, 3, 4]
          (fun _ => 0) (fun _ => 0) (fun _ _ => 0) (fun _ _ => 0)).1.isSome = true := by
  constructor
  · exact (check_input_base_error_iff.1 none false ("roulette_wheel") 5 .noneArg 3).mpr
      (Or.inl ⟨rfl, rfl⟩)
  · exact (check_input_base_error_iff.2 ("tournament") (by simp [allowed_selection_strategies])
      [] [] [1, 2, 3, 4] 2 (fun _ => 0) (fun _ => 0) (fun _ _ => 0) (fun _ _ => 0)).1

/-- Scaling every element of a real list scales the sum. -/
theorem sum_map_mul_right_real (l : List ℝ) (c : ℝ) :
    (l.map (fun x => x * c)).sum = l.sum * c := by
  induction l with
  | nil => simp
  | cons x xs ih => simp [ih, add_mul]

/-- The last entry of `np.cumsum` over the reals. -/
theorem npCumsum_getLastD_real (l : List ℝ) : (npCumsum l).getLastD 0 = l.sum := by
  have := cumsumFrom_getLastD (0 : ℝ) l
  simpa [npCumsum] using this

/-- The Boltzmann cumulative table always ends strictly below 1 when the
exponential is positive: the table normalizes `pop_keep + 1` probabilities to
sum `1` but cumulative-sums only the first `pop_keep` of them. -/
theorem boltzmann_table_last_lt_one (exp : ℝ → ℝ) (temperature : ℝ)
    (pop_keep : Nat) (fitness : List ℝ)
    (hexp : ∀ x, 0 < exp x) (hlen : pop_keep + 1 ≤ fitness.length) :
    ((get_boltzmann_probabilities exp temperature pop_keep fitness).1).getLastD 0 < 1 := by
  rw [get_boltzmann_probabilities]
  set nfit := fitness.take (pop_keep + 1) with hnfit
  have hnfitlen : nfit.length = pop_keep + 1 := by
    rw [hnfit, List.length_take]
    omega
  set sfit := nfit.map
    (fun f => 1 / ((f - npMinR nfit) / (npMaxR nfit - npMinR nfit) + 1 / 1000000)) with hsfit
  set mp := sfit.map (fun s => exp (-s * (1 / temperature))) with hmp
  have hmplen : mp.length = pop_keep + 1 := by simp [hmp, hsfit, hnfitlen]
  have hmppos : ∀ p ∈ mp, (0 : ℝ) < p := by
    intro p hp
    rcases List.mem_map.mp hp with ⟨s, _, rfl⟩
    exact hexp _
  have hmpne : mp ≠ [] := by
    intro h
    rw [h] at hmplen
    simp at hmplen
  set C := mp.sum with hC
  have hCpos : (0 : ℝ) < C := List.sum_pos mp hmppos hmpne
  set mp2 := mp.map (fun p => p * (1 / C)) with hmp2
  have hmp2len : mp2.length = pop_keep + 1 := by simp [hmp2, hmplen]
  have hmp2sum : mp2.sum = 1 := by
    rw [hmp2, sum_map_mul_right_real, ← hC]
    field_simp
  have hmp2pos : ∀ p ∈ mp2, (0 : ℝ) < p := by
    intro p hp
    rcases List.mem_map.mp hp with ⟨q, hq, rfl⟩
    exact mul_pos (hmppos q hq) (by positivity)
  have hsplit : (mp2.take pop_keep).sum + (mp2.drop pop_keep).sum = 1 := by
    rw [← List.sum_append, List.take_append_drop, hmp2sum]
  have hdroplen : (mp2.drop pop_keep).length = 1 := by
    rw [List.length_drop, hmp2len]
    omega
  have hdropne : mp2.drop pop_keep ≠ [] := by
    intro h
    rw [h] at hdroplen
    simp at hdroplen
  have hdroppos : (0 : ℝ) < (mp2.drop pop_keep).sum :=
    List.sum_pos _ (fun p hp => hmp2pos p (List.mem_of_mem_drop hp)) hdropne
  have htakelt : (mp2.take pop_keep).sum < 1 := by linarith
  have hfst : ((((0 : ℝ) :: npCumsum (mp2.take pop_keep)),
      temperature + (1 / 10) * temperature)).1 =
      ((0 : ℝ) :: npCumsum (mp2.take pop_keep)) := rfl
  rw [hfst]
  cases hcs : npCumsum (mp2.take pop_keep) with
  | nil => norm_num
  | cons c cs =>
    rw [List.getLastD_cons, ← hcs, npCumsum_getLastD_real]
    exact htakelt

/-- One generation advances the loop counter `gen_n` by exactly one. -/
theorem generation_gen_n (cfg : Config) (child : Child) (orc : RunOracle)
    (k : Nat) (s : GenState) :
    (generation cfg child orc k s).gen_n = s.gen_n + 1 := rfl

/-- One generation advances the persistent counter `generations_` by exactly
one. -/
theorem generation_generations (cfg : Config) (child : Child) (orc : RunOracle)
    (k : Nat) (s : GenState) :
    (generation cfg child orc k s).generations_ = s.generations_ + 1 := rfl

/-- One generation appends one entry to each fitness history. -/
theorem generation_histories (cfg : Config) (child : Child) (orc : RunOracle)
    (k : Nat) (s : GenState) :
    (generation cfg child orc k s).mean_fitness = s.mean_fitness ++ [npMean s.fitness] ∧
    (generation cfg child orc k s).max_fitness = s.max_fitness ++ [s.fitness.headD 0] :=
  ⟨rfl, rfl⟩

/-- The stagnation update of one generation: `conv` is incremented exactly when
the generation's `np.isclose` test succeeds (the same flag recorded in the
ghost trace), and it is never decreased. -/
theorem generation_step_conv (cfg : Config) (child : Child) (orc : RunOracle)
    (k : Nat) (s : GenState) :
    ∃ b : Bool, (generation cfg child orc k s).conv = (if b then s.conv + 1 else s.conv) ∧
      (generation cfg child orc k s).stagnation_trace = s.stagnation_trace ++ [b] :=
  ⟨_, rfl, rfl⟩

/-- The generation body does not read `initialize_population` (only `solve`
does, and only when no population is stored). -/
theorem generation_init_irrel (cfg : Config) (child : Child) (orc : RunOracle)
    (alt : List Row) (k : Nat) (s : GenState) :
    generation cfg { child with initialize_population := alt } orc k s =
      generation cfg child orc k s := rfl

/-- When stagnation cannot trigger termination (`max_conv` at least the
budget), the loop executes exactly `niter - gen_n` further generations: it
stops at the end of the generation in which `gen_n` reaches `niter`. -/
theorem solveLoop_generations (cfg : Config) (child : Child) (orc : RunOracle)
    (niter : Nat) : ∀ (fuel : Nat) (s : GenState),
    s.conv + fuel ≤ cfg.max_conv → niter ≤ s.gen_n + fuel → s.gen_n + 1 ≤ niter →
    (solveLoop cfg child orc niter fuel s).generations_ =
      s.generations_ + (niter - s.gen_n) := by
  intro fuel
  induction fuel with
  | zero => intro s h1 h2 h3; omega
  | succ fuel ih =>
    intro s h1 h2 h3
    rw [solveLoop]
    obtain ⟨b, hconv, -⟩ := generation_step_conv cfg child orc (niter - fuel - 1) s
    set s' := generation cfg child orc (niter - fuel - 1) s with hs'
    have hgen : s'.gen_n = s.gen_n + 1 := rfl
    have hgens : s'.generations_ = s.generations_ + 1 := rfl
    have hconvle : s'.conv ≤ s.conv + 1 := by rw [hconv]; split <;> omega
    by_cases hbreak : niter ≤ s'.gen_n ∨ cfg.max_conv < s'.conv
    · rw [if_pos hbreak]
      rcases hbreak with h | h
      · rw [hgen] at h
        omega
      · omega
    · rw [if_neg hbreak]
      push_neg at hbreak
      obtain ⟨hb1, hb2⟩ := hbreak
      rw [hgen] at hb1
      have := ih s' (by omega) (by rw [hgen]; omega) (by rw [hgen]; omega)
      rw [this, hgens, hgen]
      omega

/-- The loop-local stagnation counter grows by exactly the number of `true`
entries added to the stagnation trace: over any run segment,
`conv_out - conv_in = #stagnant generations executed`. -/
theorem solveLoop_conv_count (cfg : Config) (child : Child) (orc : RunOracle)
    (niter : Nat) : ∀ (fuel : Nat) (s : GenState),
    (solveLoop cfg child orc niter fuel s).conv + s.stagnation_trace.count true =
      s.conv + (solveLoop cfg child orc niter fuel s).stagnation_trace.count true := by
  intro fuel
  induction fuel with
  | zero => intro s; rfl
  | succ fuel ih =>
    intro s
    rw [solveLoop]
    obtain ⟨b, hconv, htrace⟩ := generation_step_conv cfg child orc (niter - fuel - 1) s
    set s' := generation cfg child orc (niter - fuel - 1) s with hs'
    have hstep : s'.conv + s.stagnation_trace.count true =
        s.conv + s'.stagnation_trace.count true := by
      rw [hconv, htrace, List.count_append]
      cases b with
      | false => simp
      | true => simp; omega
    by_cases hbreak : niter ≤ s'.gen_n ∨ cfg.max_conv < s'.conv
    · rw [if_pos hbreak]
      exact hstep
    · rw [if_neg hbreak]
      have h2 := ih s'
      omega

/-- The fitness histories are only appended to by the loop. -/
theorem solveLoop_histories (cfg : Config) (child : Child) (orc : RunOracle)
    (niter : Nat) : ∀ (fuel : Nat) (s : GenState),
    ∃ t u, (solveLoop cfg child orc niter fuel s).mean_fitness = s.mean_fitness ++ t ∧
      (solveLoop cfg child orc niter fuel s).max_fitness = s.max_fitness ++ u := by
  intro fuel
  induction fuel with
  | zero => exact fun s => ⟨[], [], by simp [solveLoop], by simp [solveLoop]⟩
  | succ fuel ih =>
    intro s
    rw [solveLoop]
    obtain ⟨hmean, hmax⟩ := generation_histories cfg child orc (niter - fuel - 1) s
    set s' := generation cfg child orc (niter - fuel - 1) s with hs'
    by_cases hbreak : niter ≤ s'.gen_n ∨ cfg.max_conv < s'.conv
    · rw [if_pos hbreak]
      exact ⟨_, _, hmean, hmax⟩
    · rw [if_neg hbreak]
      obtain ⟨t, u, ht, hu⟩ := ih s'
      exact ⟨_, _, by rw [ht, hmean, List.append_assoc],
        by rw [hu, hmax, List.append_assoc]⟩

/-- `generations_` and `gen_n` advance in lockstep: the persistent generation
counter gains exactly the number of generations executed in this call. -/
theorem solveLoop_lockstep (cfg : Config) (child : Child) (orc : RunOracle)
    (niter : Nat) : ∀ (fuel : Nat) (s : GenState),
    (solveLoop cfg child orc niter fuel s).generations_ + s.gen_n =
      s.generations_ + (solveLoop cfg child orc niter fuel s).gen_n := by
  intro fuel
  induction fuel with
  | zero => intro s; rfl
  | succ fuel ih =>
    intro s
    rw [solveLoop]
    set s' := generation cfg child orc (niter - fuel - 1) s with hs'
    have hgen : s'.gen_n = s.gen_n + 1 := rfl
    have hgens : s'.generations_ = s.generations_ + 1 := rfl
    by_cases hbreak : niter ≤ s'.gen_n ∨ cfg.max_conv < s'.conv
    · rw [if_pos hbreak, hgens, hgen]
      omega
    · rw [if_neg hbreak]
      have := ih s'
      omega

/-- The loop never reads `initialize_population`. -/
theorem solveLoop_init_irrel (cfg : Config) (child : Child) (orc : RunOracle)
    (niter : Nat) (alt : List Row) : ∀ (fuel : Nat) (s : GenState),
    solveLoop cfg { child with initialize_population := alt } orc niter fuel s =
      solveLoop cfg child orc niter fuel s := by
  intro fuel
  induction fuel with
  | zero => intro s; rfl
  | succ fuel ih =>
    intro s
    rw [solveLoop, solveLoop, generation_init_irrel, ih]

/-- A fold whose step preserves list length preserves list length. -/
theorem foldl_length_const {β : Type} (f : List Row → β → List Row)
    (h : ∀ pop b, (f pop b).length = pop.length) :
    ∀ (l : List β) (pop : List Row), (List.foldl f pop l).length = pop.length := by
  intro l
  induction l with
  | nil => intro pop; rfl
  | cons x xs ih => intro pop; rw [List.foldl_cons, ih, h]

/-- Offspring placement only overwrites rows in place. -/
theorem offspring_step_length (child : Child) (pop_size n_matings : Nat)
    (ma pa : List ℤ) (xp : List (Option (List Nat))) (population : List Row) :
    (offspring_step child pop_size n_matings ma pa xp population).length =
      population.length :=
  foldl_length_const _ (fun pop i => by simp [List.length_set]) _ _

/-- Mutation only overwrites single cells in place. -/
theorem apply_mutations_length (population : List Row) (rows cols : List Nat)
    (geneDraw : Nat → ℚ) :
    (apply_mutations population rows cols geneDraw).length = population.length :=
  foldl_length_const _ (fun pop k => by simp [List.length_set]) _ _

/-- A fold whose step grows the list by at most one element. -/
theorem foldl_length_le (f : List Row → Nat → List Row)
    (h : ∀ acc b, (f acc b).length ≤ acc.length + 1) :
    ∀ (l : List Nat) (a : List Row),
      (List.foldl f a l).length ≤ a.length + l.length := by
  intro l
  induction l with
  | nil => intro a; simp
  | cons x xs ih =>
    intro a
    rw [List.foldl_cons]
    have h1 := ih (f a x)
    have h2 := h a x
    simp only [List.length_cons]
    omega

/-- The pruned population never exceeds `pop_size` rows. -/
theorem prune_population_length_le (pop_size : Nat) (population : List Row)
    (hpos : 1 ≤ pop_size) :
    (prune_population pop_size population).length ≤ pop_size := by
  have h := foldl_length_le
    (fun pruned i =>
      if population.getD i [] = pruned.getLastD [] then pruned
      else pruned ++ [population.getD i []])
    (fun acc b => by dsimp only; split <;> simp)
    (List.range' 1 (pop_size - 1)) [population.headD []]
  rw [prune_population]
  simp only [List.length_range'] at h
  simp only [List.length_cons, List.length_nil] at h
  omega

/-- Pruning plus refill restores exactly `pop_size` rows. -/
theorem prune_and_refill_length (pop_size : Nat) (refill_population : Nat → List Row)
    (population : List Row)
    (hrefill : ∀ n, (refill_population n).length = n)
    (hlen : population.length = pop_size) (hpos : 1 ≤ pop_size) :
    (prune_and_refill pop_size refill_population population).length = pop_size := by
  rw [prune_and_refill]
  have hle := prune_population_length_le pop_size population hpos
  by_cases h : 0 < pop_size - (prune_population pop_size population).length
  · rw [if_pos h]
    rw [List.length_append, hrefill]
    omega
  · rw [if_neg h]
    exact hlen

/-- `npArgsort` produces one index per fitness entry. -/
theorem npArgsort_length (fitness : List ℚ) :
    (npArgsort fitness).length = fitness.length := by
  simp [npArgsort, List.length_insertionSort]

/-- The sorted population and fitness have as many entries as the input
fitness vector. -/
theorem sort_by_fitness_length (fitness : List ℚ) (population : List (List ℚ))
    (printable_fitness : List ℚ) (junk : ℚ) :
    (sort_by_fitness fitness population printable_fitness junk).2.1.length =
        fitness.length ∧
    (sort_by_fitness fitness population printable_fitness junk).1.length =
        fitness.length := by
  constructor <;> simp [sort_by_fitness, npArgsort_length]

/-- One generation preserves the population size: offspring and mutation
overwrite in place, and pruning refills back to `pop_size`. -/
theorem generation_population_length (cfg : Config) (child : Child)
    (orc : RunOracle) (k : Nat) (s : GenState)
    (hrefill : ∀ n, (child.refill_population n).length = n)
    (hpos : 1 ≤ cfg.pop_size)
    (hlen : s.population.length = cfg.pop_size) :
    (generation cfg child orc k s).population.length = cfg.pop_size := by
  unfold generation
  dsimp only
  rw [(sort_by_fitness_length _ _ _ _).1]
  have h1 := offspring_step_length child cfg.pop_size cfg.n_matings
    ((select_parents cfg.selection_strategy s.prob_intervals (orc.boltzIntervals k)
        cfg.n_matings s.fitness (orc.maDraw k) (orc.paDraw k) (orc.tourDraw k)
        (orc.tourDraw2 k)).1.getD [])
    ((select_parents cfg.selection_strategy s.prob_intervals (orc.boltzIntervals k)
        cfg.n_matings s.fitness (orc.maDraw k) (orc.paDraw k) (orc.tourDraw k)
        (orc.tourDraw2 k)).2.1.getD [])
    ((List.range cfg.n_matings).map
      (fun i => get_crossover_points cfg.allowed_mutation_genes
        cfg.n_crossover_points (orc.xpDraw k i))) s.population
  set pop1 := offspring_step child cfg.pop_size cfg.n_matings _ _ _ s.population
  have h2 := apply_mutations_length pop1
    (mutate_population cfg.pop_size cfg.allowed_mutation_genes cfg.n_mutations
      (orc.rowDraw k) (orc.colDraw k)).1
    (mutate_population cfg.pop_size cfg.allowed_mutation_genes cfg.n_mutations
      (orc.rowDraw k) (orc.colDraw k)).2 (orc.geneDraw k)
  set pop2 := apply_mutations pop1 _ _ (orc.geneDraw k)
  have hpop2 : pop2.length = cfg.pop_size := by rw [h2, h1, hlen]
  have hpop3 : (if cfg.prune_duplicates
      then prune_and_refill cfg.pop_size child.refill_population pop2
      else pop2).length = cfg.pop_size := by
    split
    · exact prune_and_refill_length _ _ _ hrefill hpop2 hpos
    · exact hpop2
  simp only [List.length_cons, calculate_fitness, List.length_map, List.length_drop]
  rw [hpop3]
  omega

/-- The loop preserves the population size. -/
theorem solveLoop_population_length (cfg : Config) (child : Child)
    (orc : RunOracle) (niter : Nat)
    (hrefill : ∀ n, (child.refill_population n).length = n)
    (hpos : 1 ≤ cfg.pop_size) : ∀ (fuel : Nat) (s : GenState),
    s.population.length = cfg.pop_size →
    (solveLoop cfg child orc niter fuel s).population.length = cfg.pop_size := by
  intro fuel
  induction fuel with
  | zero => intro s h; exact h
  | succ fuel ih =>
    intro s h
    rw [solveLoop]
    have h' := generation_population_length cfg child orc (niter - fuel - 1) s
      hrefill hpos h
    set s' := generation cfg child orc (niter - fuel - 1) s with hs'
    by_cases hbreak : niter ≤ s'.gen_n ∨ cfg.max_conv < s'.conv
    · rw [if_pos hbreak]
      exact h'
    · rw [if_neg hbreak]
      exact ih s' h'

/-- Unfolding `solve`: its second component is the final loop state, and the
written-back instance fields (lines 341-345) are projections of it. -/
theorem solve_proj (cfg : Config) (child : Child) (orc : RunOracle)
    (st : SolverState) (niter : Option Nat) :
    (solve cfg child orc st niter).2 =
      solveLoop cfg child orc (solveNiter cfg niter) (solveNiter cfg niter)
        (solveInitGenState child st) ∧
    (solve cfg child orc st niter).1.generations_ =
      (solve cfg child orc st niter).2.generations_ ∧
    (solve cfg child orc st niter).1.population_ =
      some (solve cfg child orc st niter).2.population ∧
    (solve cfg child orc st niter).1.mean_fitness_ =
      some (solve cfg child orc st niter).2.mean_fitness ∧
    (solve cfg child orc st niter).1.max_fitness_ =
      some (solve cfg child orc st niter).2.max_fitness ∧
    (solve cfg child orc st niter).1.temperature =
      (solve cfg child orc st niter).2.temperature :=
  ⟨rfl, rfl, rfl, rfl, rfl, rfl⟩

/-- The loop state at the top of the loop: fresh local counters, stored
histories and state fields. -/
theorem solveInit_proj (child : Child) (st : SolverState) :
    (solveInitGenState child st).conv = 0 ∧
    (solveInitGenState child st).gen_n = 1 ∧
    (solveInitGenState child st).generations_ = st.generations_ ∧
    (solveInitGenState child st).mean_fitness = st.mean_fitness_.getD [] ∧
    (solveInitGenState child st).max_fitness = st.max_fitness_.getD [] ∧
    (solveInitGenState child st).temperature = st.temperature ∧
    (solveInitGenState child st).stagnation_trace = [] :=
  ⟨rfl, rfl, rfl, rfl, rfl, rfl, rfl⟩

/-- The initial sort does not change the number of rows. -/
theorem solveInit_population_length (child : Child) (st : SolverState) :
    (solveInitGenState child st).population.length =
      (st.population_.getD child.initialize_population).length := by
  unfold solveInitGenState
  dsimp only
  rw [(sort_by_fitness_length _ _ _ _).1]
  simp [calculate_fitness]

/-- For any strategy other than `boltzmann`, the loop never touches the
temperature. -/
theorem solveLoop_temperature_const (cfg : Config) (child : Child)
    (orc : RunOracle) (niter : Nat)
    (h : ¬ cfg.selection_strategy = "boltzmann") : ∀ (fuel : Nat) (s : GenState),
    (solveLoop cfg child orc niter fuel s).temperature = s.temperature := by
  intro fuel
  induction fuel with
  | zero => intro s; rfl
  | succ fuel ih =>
    intro s
    rw [solveLoop]
    set s' := generation cfg child orc (niter - fuel - 1) s with hs'
    have htemp : s'.temperature = s.temperature := by
      show (if cfg.selection_strategy = "boltzmann"
        then s.temperature + (1 / 10) * s.temperature else s.temperature) = s.temperature
      rw [if_neg h]
    by_cases hbreak : niter ≤ s'.gen_n ∨ cfg.max_conv < s'.conv
    · rw [if_pos hbreak]
      exact htemp
    · rw [if_neg hbreak, ih s', htemp]

/-- C8: the population row count is exactly `pop_size` at the end of every
generation (step invariant), and across a whole `solve` call: whenever the
starting population (stored or freshly initialised) has `pop_size` rows and
`refill_population` honours its contract of returning exactly the requested
number of fresh rows, the final population stored back into the solver has
exactly `pop_size` rows — including when duplicate pruning removed rows and
the deficit was refilled. -/
theorem population_size_invariant (cfg : Config) (child : Child) (orc : RunOracle)
    (hrefill : ∀ n, (child.refill_population n).length = n)
    (hpos : 1 ≤ cfg.pop_size) :
    (∀ (k : Nat) (s : GenState), s.population.length = cfg.pop_size →
      (generation cfg child orc k s).population.length = cfg.pop_size) ∧
    (∀ (st : SolverState) (niter : Option Nat),
      (st.population_.getD child.initialize_population).length = cfg.pop_size →
      (solve cfg child orc st niter).2.population.length = cfg.pop_size ∧
      (solve cfg child orc st niter).1.population_ =
        some (solve cfg child orc st niter).2.population) := by
  constructor
  · intro k s h
    exact generation_population_length cfg child orc k s hrefill hpos h
  · intro st niter hst
    refine ⟨?_, (solve_proj cfg child orc st niter).2.2.1⟩
    rw [(solve_proj cfg child orc st niter).1]
    exact solveLoop_population_length cfg child orc _ hrefill hpos _ _
      (by rw [solveInit_population_length]; exact hst)

/-- C3 (amended): writing `n' = min(niter, max_gen)` for the effective budget,
whenever `2 ≤ n'` and stagnation cannot end the run first (`n' ≤ max_conv`),
the generational loop executes exactly `n' - 1` generations — one fewer than
the budget, because `gen_n` starts at 1 and is incremented before the
end-of-generation check `gen_n >= niter`.  Termination is still only ever
decided at the end of a generation (the loop body runs in full before the
break). -/
theorem solve_generation_budget (cfg : Config) (child : Child) (orc : RunOracle)
    (st : SolverState) (n : Nat) (h2 : 2 ≤ n) (hmax : n ≤ cfg.max_gen)
    (hconv : n ≤ cfg.max_conv) :
    (solve cfg child orc st (some n)).1.generations_ =
      st.generations_ + (n - 1) := by
  have hn : solveNiter cfg (some n) = n := by
    rw [solveNiter]
    omega
  rw [(solve_proj cfg child orc st (some n)).2.1,
    (solve_proj cfg child orc st (some n)).1, hn]
  have hc : (solveInitGenState child st).conv = 0 := rfl
  have hg : (solveInitGenState child st).gen_n = 1 := rfl
  have hgens : (solveInitGenState child st).generations_ = st.generations_ := rfl
  have h := solveLoop_generations cfg child orc n n (solveInitGenState child st)
    (by rw [hc]; omega) (by rw [hg]; omega) (by rw [hg]; omega)
  rw [h, hgens, hg]

/-- C4 (amended): across one `solve` call the stagnation counter `conv` equals
the *total* number of generations of that call whose `np.isclose` test
succeeded (recorded in the ghost trace) — it is never reset on improvement,
so it does not count *consecutive* stagnant generations; and in each
generation `conv` is incremented exactly when the previous best fitness is
`np.isclose` to the new best fitness (`fitness[0]` after sorting), otherwise
it is left unchanged. -/
theorem solve_conv_counts_total_stagnation (cfg : Config) (child : Child)
    (orc : RunOracle) (st : SolverState) (niter : Option Nat) :
    (solve cfg child orc st niter).2.conv =
      (solve cfg child orc st niter).2.stagnation_trace.count true ∧
    (∀ (k : Nat) (s : GenState),
      (generation cfg child orc k s).conv =
        (if np_isclose s.best_fitness_ ((generation cfg child orc k s).fitness.headD 0)
          then s.conv + 1 else s.conv) ∧
      (generation cfg child orc k s).stagnation_trace =
        s.stagnation_trace ++
          [np_isclose s.best_fitness_ ((generation cfg child orc k s).fitness.headD 0)]) := by
  constructor
  · have h := solveLoop_conv_count cfg child orc (solveNiter cfg niter)
      (solveNiter cfg niter) (solveInitGenState child st)
    have h0 : (solveInitGenState child st).conv = 0 := rfl
    have ht : (solveInitGenState child st).stagnation_trace = [] := rfl
    rw [h0, ht] at h
    simp only [List.count_nil] at h
    rw [(solve_proj cfg child orc st niter).1]
    omega
  · intro k s
    exact ⟨rfl, rfl⟩

/-- When a population is stored, the initial loop state does not depend on
`initialize_population`. -/
theorem solveInit_stored_irrel (child : Child) (st : SolverState) (p : List Row)
    (h : st.population_ = some p) (alt : List Row) :
    solveInitGenState { child with initialize_population := alt } st =
      solveInitGenState child st := by
  unfold solveInitGenState
  rw [h]
  rfl

/-- C10: across successive `solve` calls on the same solver instance the
stored run state is resumed, not reset: (i) when a population is stored,
`initialize_population` is never consulted (the whole call result is
independent of it); (ii) the mean/max fitness histories are extended by
appending to the stored histories; (iii) the persistent generation counter
continues from its stored value, advancing in lockstep with the loop-local
`gen_n`; (iv) the temperature is the stored one (unchanged for non-Boltzmann
strategies, never reset to 100); but (v) the stagnation counter `conv` is a
local variable initialised to 0 in every call: after any call it counts only
the stagnant generations of that call (the ghost trace, which starts empty at
each call). -/
theorem solve_resumes_state (cfg : Config) (child : Child) (orc : RunOracle)
    (st : SolverState) (niter : Option Nat) :
    (∀ p, st.population_ = some p → ∀ alt,
      solve cfg { child with initialize_population := alt } orc st niter =
        solve cfg child orc st niter) ∧
    (∃ t u, (solve cfg child orc st niter).1.mean_fitness_ =
        some (st.mean_fitness_.getD [] ++ t) ∧
      (solve cfg child orc st niter).1.max_fitness_ =
        some (st.max_fitness_.getD [] ++ u)) ∧
    ((solve cfg child orc st niter).1.generations_ + 1 =
      st.generations_ + (solve cfg child orc st niter).2.gen_n) ∧
    (¬ cfg.selection_strategy = "boltzmann" →
      (solve cfg child orc st niter).1.temperature = st.temperature) ∧
    ((solve cfg child orc st niter).2.conv =
      (solve cfg child orc st niter).2.stagnation_trace.count true ∧
     (solveInitGenState child st).conv = 0 ∧
     (solveInitGenState child st).stagnation_trace = []) := by
  refine ⟨?_, ?_, ?_, ?_, ?_, rfl, rfl⟩
  · intro p hp alt
    unfold solve
    rw [solveInit_stored_irrel child st p hp alt, solveLoop_init_irrel]
  · obtain ⟨t, u, ht, hu⟩ := solveLoop_histories cfg child orc (solveNiter cfg niter)
      (solveNiter cfg niter) (solveInitGenState child st)
    refine ⟨t, u, ?_, ?_⟩
    · rw [(solve_proj cfg child orc st niter).2.2.2.1,
        (solve_proj cfg child orc st niter).1, ht]
      rfl
    · rw [(solve_proj cfg child orc st niter).2.2.2.2.1,
        (solve_proj cfg child orc st niter).1, hu]
      rfl
  · have h := solveLoop_lockstep cfg child orc (solveNiter cfg niter)
      (solveNiter cfg niter) (solveInitGenState child st)
    have hg : (solveInitGenState child st).gen_n = 1 := rfl
    have hgens : (solveInitGenState child st).generations_ = st.generations_ := rfl
    rw [hg, hgens] at h
    rw [(solve_proj cfg child orc st niter).2.1, (solve_proj cfg child orc st niter).1]
    omega
  · intro hb
    rw [(solve_proj cfg child orc st niter).2.2.2.2.2,
      (solve_proj cfg child orc st niter).1,
      solveLoop_temperature_const cfg child orc _ hb]
    rfl
  · have h := solveLoop_conv_count cfg child orc (solveNiter cfg niter)
      (solveNiter cfg niter) (solveInitGenState child st)
    have h0 : (solveInitGenState child st).conv = 0 := rfl
    have ht : (solveInitGenState child st).stagnation_trace = [] := rfl
    rw [h0, ht] at h
    simp only [List.count_nil] at h
    rw [(solve_proj cfg child orc st niter).1]
    omega

/-- `np.cumsum` preserves length. -/
theorem npCumsum_length {α : Type} [Add α] [Zero α] (l : List α) :
    (npCumsum l).length = l.length :=
  cumsumFrom_length 0 l

/-- C5 (amended): for every positive exponential, the Boltzmann table is
recomputed from the top `pop_keep + 1` (not `pop_keep`) fitness values — the
result depends only on `fitness[0 : pop_keep + 1]`; it has `pop_keep + 1`
entries starting at 0; the probabilities are normalized to sum 1 but the
cumulative table covers only the first `pop_keep` of the `pop_keep + 1`
normalized probabilities, so its last entry is strictly *below* 1; each call
multiplies the temperature by 1.1 (`temperature += 0.1 * temperature`), and
the solver's initial temperature is 100.  (The `1e-6` term is added after the
min-max division, guarding the reciprocal, not a zero fitness range.) -/
theorem get_boltzmann_probabilities_spec (exp : ℝ → ℝ) (T : ℝ) (pop_keep : Nat)
    (fitness : List ℝ) (hexp : ∀ x, 0 < exp x)
    (hlen : pop_keep + 1 ≤ fitness.length) :
    (get_boltzmann_probabilities exp T pop_keep fitness).1.length = pop_keep + 1 ∧
    (get_boltzmann_probabilities exp T pop_keep fitness).1.head? = some 0 ∧
    (get_boltzmann_probabilities exp T pop_keep fitness).1.getLastD 0 < 1 ∧
    (get_boltzmann_probabilities exp T pop_keep fitness).2 = T + (1 / 10) * T ∧
    (∀ fitness2 : List ℝ,
      fitness.take (pop_keep + 1) = fitness2.take (pop_keep + 1) →
      get_boltzmann_probabilities exp T pop_keep fitness =
        get_boltzmann_probabilities exp T pop_keep fitness2) ∧
    (∀ (strategy : String) (pk : Nat), (initSolverState strategy pk).temperature = 100) := by
  refine ⟨?_, rfl, boltzmann_table_last_lt_one exp T pop_keep fitness hexp hlen,
    rfl, ?_, fun _ _ => rfl⟩
  · rw [get_boltzmann_probabilities]
    simp only [List.length_cons, npCumsum_length, List.length_take, List.length_map]
    omega
  · intro fitness2 h
    rw [get_boltzmann_probabilities, get_boltzmann_probabilities, h]

/-- Witness for the amended C5 at `exp = Real.exp`, `T = 100`, `pop_keep = 2`,
fitness `[3, 2, 1, 0]`. -/
theorem get_boltzmann_probabilities_spec_witness :
    (get_boltzmann_probabilities Real.exp 100 2 ([3, 2, 1, 0] : List ℝ)).1.length = 2 + 1 ∧
    (get_boltzmann_probabilities Real.exp 100 2 ([3, 2, 1, 0] : List ℝ)).1.getLastD 0 < 1 ∧
    (get_boltzmann_probabilities Real.exp 100 2 ([3, 2, 1, 0] : List ℝ)).2 =
      100 + (1 / 10) * 100 := by
  have h := get_boltzmann_probabilities_spec Real.exp 100 2 ([3, 2, 1, 0] : List ℝ)
    (fun x => Real.exp_pos x) (by simp)
  exact ⟨h.1, h.2.2.1, h.2.2.2.1⟩

/-- C5 (counterexample): at `pop_keep = 2`, temperature 100 and fitness
`[3, 2, 1, 0]`, the Boltzmann computation slices `fitness[0:3] = [3, 2, 1]` —
three values, not the top `pop_keep = 2` — and the cumulative table does not
end at 1 (its last entry is strictly smaller, because the last of the three
normalized probabilities is dropped from the cumulative sum). -/
theorem boltzmann_table_counterexample :
    ([3, 2, 1, 0] : List ℝ).take (2 + 1) = [3, 2, 1] ∧
    ([3, 2, 1] : List ℝ).length ≠ 2 ∧
    (get_boltzmann_probabilities Real.exp 100 2 ([3, 2, 1, 0] : List ℝ)).1.getLastD 0 ≠ 1 := by
  refine ⟨rfl, by simp, ?_⟩
  exact ne_of_lt (boltzmann_table_last_lt_one Real.exp 100 2 _
    (fun x => Real.exp_pos x) (by simp))

/-- C3 (counterexample): with `max_gen = 100 ≥ 2` and no stagnation
termination (`max_conv = 100`), a call with integer budget `niter = 2` runs
exactly **one** generation, not `min(niter, max_gen) = 2`: `gen_n` starts at 1,
is incremented to 2 in the first generation, and the end-of-generation check
`gen_n >= niter` then fires. -/
theorem solve_budget_counterexample :
    (solve exampleConfig exampleChild exampleOracle (initSolverState ("two_by_two") 2)
        (some 2)).1.generations_ = 1 ∧
    min 2 exampleConfig.max_gen = 2 ∧ (1 : Nat) ≠ 2 := by
  refine ⟨?_, rfl, by omega⟩
  have hn : solveNiter exampleConfig (some 2) = 2 := rfl
  rw [(solve_proj exampleConfig exampleChild exampleOracle
      (initSolverState ("two_by_two") 2) (some 2)).2.1,
    (solve_proj exampleConfig exampleChild exampleOracle
      (initSolverState ("two_by_two") 2) (some 2)).1, hn]
  have hc : (solveInitGenState exampleChild (initSolverState ("two_by_two") 2)).conv = 0 := rfl
  have hg : (solveInitGenState exampleChild (initSolverState ("two_by_two") 2)).gen_n = 1 := rfl
  have hgens : (solveInitGenState exampleChild
      (initSolverState ("two_by_two") 2)).generations_ = 0 := rfl
  have h := solveLoop_generations exampleConfig exampleChild exampleOracle 2 2
    (solveInitGenState exampleChild (initSolverState ("two_by_two") 2))
    (by rw [hc]; norm_num [exampleConfig]) (by rw [hg]; omega) (by rw [hg])
  rw [h, hgens, hg]

/-- Witness for the amended C3 at budget `niter = 3`: exactly 2 generations. -/
theorem solve_generation_budget_witness :
    (solve exampleConfig exampleChild exampleOracle (initSolverState ("two_by_two") 2)
        (some 3)).1.generations_ =
      (initSolverState ("two_by_two") 2).generations_ + (3 - 1) :=
  solve_generation_budget exampleConfig exampleChild exampleOracle
    (initSolverState ("two_by_two") 2) 3 (by omega)
    (by norm_num [exampleConfig]) (by norm_num [exampleConfig])

/-- Witness for C8 at the concrete two-row configuration. -/
theorem population_size_invariant_witness :
    (∀ n, (exampleChild.refill_population n).length = n) ∧
    1 ≤ exampleConfig.pop_size ∧
    (solve exampleConfig exampleChild exampleOracle (initSolverState ("two_by_two") 2)
        none).2.population.length = exampleConfig.pop_size := by
  have hrefill : ∀ n, (exampleChild.refill_population n).length = n := by
    intro n
    simp [exampleChild]
  refine ⟨hrefill, by norm_num [exampleConfig], ?_⟩
  exact ((population_size_invariant exampleConfig exampleChild exampleOracle hrefill
    (by norm_num [exampleConfig])).2 (initSolverState ("two_by_two") 2) none
    (by norm_num [initSolverState, exampleChild, exampleConfig])).1

/-- Witness for C10: on the resumed state the second call ignores
`initialize_population`, and its generation counter continues from the stored
one in lockstep with the loop counter. -/
theorem solve_resumes_state_witness :
    (solve exampleConfig { exampleChild with initialize_population := [[5], [5]] }
        exampleOracle exampleResumedState none =
      solve exampleConfig exampleChild exampleOracle exampleResumedState none) ∧
    ((solve exampleConfig exampleChild exampleOracle exampleResumedState none).1.generations_ + 1 =
      exampleResumedState.generations_ +
        (solve exampleConfig exampleChild exampleOracle exampleResumedState none).2.gen_n) := by
  constructor
  · exact (solve_resumes_state exampleConfig exampleChild exampleOracle
      exampleResumedState none).1
      ((solve exampleConfig exampleChild exampleOracle (initSolverState ("two_by_two") 2)
        (some 2)).2.population) rfl [[5], [5]]
  · exact (solve_resumes_state exampleConfig exampleChild exampleOracle
      exampleResumedState none).2.2.1

/-- The `two_by_two` strategy has no static probability table. -/
theorem get_selection_probabilities_two_by_two (pk : Nat) :
    get_selection_probabilities ("two_by_two") pk = none := by
  rw [get_selection_probabilities, if_neg (by decide), if_neg (by decide)]

/-- `two_by_two` selection with zero matings yields two empty parent lists. -/
theorem select_parents_two_by_two_zero (pi bi fit : List ℚ) (md pd : Nat → ℚ)
    (td td2 : Nat → Nat → Nat) :
    select_parents ("two_by_two") pi bi 0 fit md pd td td2 = (some [], some [], pi) := by
  rw [select_parents, if_neg (by decide), if_neg (by decide), if_pos rfl]
  simp [everyOther]

/-- `np.isclose 0 0` holds. -/
theorem np_isclose_zero_zero : np_isclose 0 0 = true := by
  norm_num [np_isclose]

/-- `np.isclose 0 100` fails: an improvement from 0 to 100 is numerically
distinguishable. -/
theorem np_isclose_zero_hundred : np_isclose 0 100 = false := by
  norm_num [np_isclose]

/-- One unfolding step of the loop. -/
theorem solveLoop_succ (cfg : Config) (child : Child) (orc : RunOracle)
    (niter fuel : Nat) (s : GenState) :
    solveLoop cfg child orc niter (fuel + 1) s =
      (if niter ≤ (generation cfg child orc (niter - fuel - 1) s).gen_n ∨
          cfg.max_conv < (generation cfg child orc (niter - fuel - 1) s).conv
        then generation cfg child orc (niter - fuel - 1) s
        else solveLoop cfg child orc niter fuel
          (generation cfg child orc (niter - fuel - 1) s)) := rfl

/-- C4 (counterexample): a concrete two-generation run.  Generation 1 is
stagnant (`np.isclose 0 0`, counter becomes 1); in generation 2 the best
fitness improves distinguishably from 0 to 100 (`np.isclose 0 100` fails),
yet the stagnation counter stays at 1 instead of returning to 0: the code has
no reset branch, so the counter measures the total, not the consecutive,
stagnant generations. -/
theorem solve_conv_not_reset_on_improvement :
    (solve exampleConfig exampleChild exampleOracle (initSolverState ("two_by_two") 2)
        (some 3)).2.stagnation_trace = [true, false] ∧
    (solve exampleConfig exampleChild exampleOracle (initSolverState ("two_by_two") 2)
        (some 3)).2.conv = 1 ∧ (1 : Nat) ≠ 0 := by
  have hg0 : solveInitGenState exampleChild (initSolverState ("two_by_two") 2) =
      { population := [[0], [0]], fitness := [0, 0], printable_fitness := [0, 0],
        mean_fitness := [], max_fitness := [], generations_ := 0,
        best_individual_ := [], best_fitness_ := 0, best_pfitness_ := 0,
        temperature := 100, prob_intervals := [], conv := 0, gen_n := 1,
        stagnation_trace := [] } := by
    norm_num [solveInitGenState, initSolverState, exampleChild, calculate_fitness,
      sort_by_fitness, npArgsort, argsortLE, List.insertionSort, List.orderedInsert,
      List.range_succ, List.replicate, get_selection_probabilities_two_by_two]
  have hgen1 : generation exampleConfig exampleChild exampleOracle 0
      { population := [[0], [0]], fitness := [0, 0], printable_fitness := [0, 0],
        mean_fitness := [], max_fitness := [], generations_ := 0,
        best_individual_ := [], best_fitness_ := 0, best_pfitness_ := 0,
        temperature := 100, prob_intervals := [], conv := 0, gen_n := 1,
        stagnation_trace := [] } =
      { population := [[0], [0]], fitness := [0, 0], printable_fitness := [0, 0],
        mean_fitness := [0], max_fitness := [0], generations_ := 1,
        best_individual_ := [0], best_fitness_ := 0, best_pfitness_ := 0,
        temperature := 100, prob_intervals := [], conv := 1, gen_n := 2,
        stagnation_trace := [true] } := by
    norm_num [generation, exampleConfig, exampleChild, exampleOracle,
      select_parents_two_by_two_zero, offspring_step, mutate_population,
      npChoiceReplace, apply_mutations, calculate_fitness, pfPatch,
      sort_by_fitness, npArgsort, argsortLE, List.insertionSort,
      List.orderedInsert, np_isclose, npMean, List.range_succ, List.replicate,
      List.range', np_isclose_zero_zero]
    decide
  have hgen2 : generation exampleConfig exampleChild exampleOracle 1
      { population := [[0], [0]], fitness := [0, 0], printable_fitness := [0, 0],
        mean_fitness := [0], max_fitness := [0], generations_ := 1,
        best_individual_ := [0], best_fitness_ := 0, best_pfitness_ := 0,
        temperature := 100, prob_intervals := [], conv := 1, gen_n := 2,
        stagnation_trace := [true] } =
      { population := [[100], [0]], fitness := [100, 0], printable_fitness := [0, 0],
        mean_fitness := [0, 0], max_fitness := [0, 0], generations_ := 2,
        best_individual_ := [100], best_fitness_ := 100, best_pfitness_ := 0,
        temperature := 100, prob_intervals := [], conv := 1, gen_n := 3,
        stagnation_trace := [true, false] } := by
    norm_num [generation, exampleConfig, exampleChild, exampleOracle,
      select_parents_two_by_two_zero, offspring_step, mutate_population,
      npChoiceReplace, apply_mutations, calculate_fitness, pfPatch,
      sort_by_fitness, npArgsort, argsortLE, List.insertionSort,
      List.orderedInsert, np_isclose, npMean, List.range_succ, List.replicate,
      List.range', np_isclose_zero_hundred]
    decide
  have hloop : solveLoop exampleConfig exampleChild exampleOracle 3 3
      { population := [[0], [0]], fitness := [0, 0], printable_fitness := [0, 0],
        mean_fitness := [], max_fitness := [], generations_ := 0,
        best_individual_ := [], best_fitness_ := 0, best_pfitness_ := 0,
        temperature := 100, prob_intervals := [], conv := 0, gen_n := 1,
        stagnation_trace := [] } =
      { population := [[100], [0]], fitness := [100, 0], printable_fitness := [0, 0],
        mean_fitness := [0, 0], max_fitness := [0, 0], generations_ := 2,
        best_individual_ := [100], best_fitness_ := 100, best_pfitness_ := 0,
        temperature := 100, prob_intervals := [], conv := 1, gen_n := 3,
        stagnation_trace := [true, false] } := by
    show solveLoop exampleConfig exampleChild exampleOracle 3 (2 + 1) _ = _
    rw [solveLoop_succ]
    rw [show (3 : Nat) - 2 - 1 = 0 from rfl, hgen1]
    rw [if_neg (by decide)]
    show solveLoop exampleConfig exampleChild exampleOracle 3 (1 + 1) _ = _
    rw [solveLoop_succ]
    rw [show (3 : Nat) - 1 - 1 = 1 from rfl, hgen2]
    rw [if_pos (by decide)]
  have hsn : solveNiter exampleConfig (some 3) = 3 := rfl
  refine ⟨?_, ?_, by omega⟩
  · rw [(solve_proj exampleConfig exampleChild exampleOracle
      (initSolverState ("two_by_two") 2) (some 3)).1, hsn, hg0, hloop]
  · rw [(solve_proj exampleConfig exampleChild exampleOracle
      (initSolverState ("two_by_two") 2) (some 3)).1, hsn, hg0, hloop]

end SimpleGA
